import Mathlib

/-!
Verification of the event poster generator (`src/app.py`).

The development shallowly embeds the parts of `app.py` that the claims are
about:

* the Python string operations used on the title (`" ".join`, `str.split()`,
  `str.strip()`, `str.upper()`, splitting on newlines) are modelled at the
  character-list level (`String` in Lean is a wrapper around `List Char`);
* text measurement (`draw.textlength(line, font)`) is an external font metric,
  so it is a parameter `width : String → ℕ → ℚ` of the embedding; Python
  floats are modelled as exact rationals (`0.2` as `1/5`, `0.25` as `1/4`,
  `0.85` as `85/100`, ...) — at every comparison the claims turn on, the gap
  between the compared quantities is far larger than double rounding error;
* the adaptive font-size search (`app.py` lines 411–466), the layout
  constants (lines 304–307, 357–363, 404–406), the Pexels photo selection
  (lines 61–106), and the control flow of `create_event_image`/`add_footer`
  (background fallback, font failure, logo failure) are embedded as
  executable functions.
-/

set_option maxRecDepth 4000

namespace EventImage

/-! ### Character-level models of the Python string operations -/

/-- Model of Python `" ".join(ws)`. -/
def joinSpace (ws : List String) : String :=
  String.mk (List.intercalate [' '] (ws.map String.data))

/-- Model of Python `s.split()` for space-separated text: split on the space
character and drop empty fragments. -/
def splitSpace (s : String) : List String :=
  ((s.data.splitOn ' ').filter (fun l => l ≠ [])).map String.mk

/-- Model of Python `s.split('\n')`. -/
def splitNewlines (s : String) : List String :=
  (s.data.splitOn '\n').map String.mk

/-- Model of Python `s.strip()`: drop whitespace from both ends. -/
def pyStrip (s : String) : String :=
  String.mk (((s.data.dropWhile Char.isWhitespace).reverse.dropWhile
    Char.isWhitespace).reverse)

/-- Model of Python `s.upper()` (ASCII model). -/
def pyUpper (s : String) : String :=
  String.mk (s.data.map Char.toUpper)

/-- Source line 409 of `app.py`:
`[line.strip().upper() for line in event_name.split('\n') if line.strip()]`. -/
def event_name_lines (event_name : String) : List String :=
  (((splitNewlines event_name).map pyStrip).filter (fun l => l ≠ "")).map pyUpper

/-- Python `int(q)` on a float: truncation toward zero. -/
def pyInt (q : ℚ) : ℤ :=
  if q < 0 then -⌊-q⌋ else ⌊q⌋

/-! ### Layout constants (`app.py` lines 27–36, 304–307, 357–363, 404–406) -/

/-- Constant `IMAGE_SIZE = (1080, 1080)` (line 28), first component. -/
def IMAGE_W : ℕ := 1080

/-- Constant `IMAGE_SIZE = (1080, 1080)` (line 28), second component. -/
def IMAGE_H : ℕ := 1080

def FOOTER_HEIGHT : ℕ := 160

def LOGO_HEIGHT : ℕ := 120

def ICON_SIZE : ℕ := 24

/-- Source `rect_width = int(IMAGE_SIZE[0] * 0.85)` (line 304); evaluates to 918. -/
def rect_width : ℕ := (pyInt ((IMAGE_W : ℚ) * (85/100))).toNat

/-- Source `rect_height = int(IMAGE_SIZE[1] * 0.65)` (line 305); evaluates to 702. -/
def rect_height : ℕ := (pyInt ((IMAGE_H : ℚ) * (65/100))).toNat

/-- Source `rect_left = (IMAGE_SIZE[0] - rect_width) // 2` (line 306). -/
def rect_left : ℕ := (IMAGE_W - rect_width) / 2

/-- Source `rect_top = int(IMAGE_SIZE[1] * 0.14)` (line 307); evaluates to 151. -/
def rect_top : ℕ := (pyInt ((IMAGE_H : ℚ) * (14/100))).toNat

/-- Source `center_x = IMAGE_SIZE[0] // 2` (line 358). -/
def center_x : ℚ := (IMAGE_W / 2 : ℕ)

/-- Source `datetime_y = rect_top + 50` (line 361). -/
def datetime_y : ℚ := (rect_top : ℚ) + 50

/-- Source `place_y = rect_top + rect_height - 95` (line 362). -/
def place_y : ℚ := (rect_top : ℚ) + (rect_height : ℚ) - 95

/-- Source `address_y = place_y + 45` (line 363). -/
def address_y : ℚ := place_y + 45

/-- Source `available_height = place_y - datetime_y - 100` (line 405);
evaluates to 457. -/
def available_height : ℚ := place_y - datetime_y - 100

/-- Source `max_width = rect_width * 0.88` (line 406); evaluates to 807.84. -/
def max_width : ℚ := (rect_width : ℚ) * (88/100)

/-! ### The typography fitter (`app.py` lines 411–470) -/

/-- The inputs of the fitting algorithm: the text-measurement function
(`draw.textlength` at a given font size, Bold weight) and the bounding box. -/
structure FitConfig where
  width : String → ℕ → ℚ
  maxWidth : ℚ
  availableHeight : ℚ

/-- The fitter configuration actually used for the title in
`create_event_image`: bounds `max_width` and `available_height`. -/
def titleCfg (w : String → ℕ → ℚ) : FitConfig :=
  { width := w, maxWidth := max_width, availableHeight := available_height }

/-- Source `min_font_size = 40` (line 413). -/
def min_font_size : ℕ := 40

/-- Source `initial_font_size = 110` (line 412). -/
def initial_font_size : ℕ := 110

/-- Function `text_fits(lines, font_size)` (lines 416–433): reject if
`len(lines) * (font_size + 0.2 * font_size)` exceeds the available height
(note: no trailing-spacing subtraction here), else require every line's
rendered width to be at most `max_width`. -/
def text_fits (cfg : FitConfig) (lines : List String) (fontSize : ℕ) : Bool :=
  let lineSpacing : ℚ := (fontSize : ℚ) * (1/5)
  let totalHeight : ℚ := (lines.length : ℚ) * ((fontSize : ℚ) + lineSpacing)
  if cfg.availableHeight < totalHeight then false
  else lines.all fun line => decide (cfg.width line fontSize ≤ cfg.maxWidth)

/-- The `while font_size >= min_font_size` loop of lines 437–440, with an
explicit fuel argument (the loop strictly decreases `font_size` by 4 per
iteration, so `fuel = fontSize` steps always suffice; the fuel-exhausted
case is unreachable under `fontSize ≤ 4 * fuel`). -/
def searchFrom (cfg : FitConfig) (lines : List String) : ℕ → ℕ → ℕ
  | 0, fontSize => fontSize
  | fuel + 1, fontSize =>
    if min_font_size ≤ fontSize then
      if text_fits cfg lines fontSize then fontSize
      else searchFrom cfg lines fuel (fontSize - 4)
    else fontSize

/-- The font-size search started at `fontSize` (the loop of lines 436–440):
returns the first size in `fontSize, fontSize - 4, fontSize - 8, ...` that
fits, or the first value below `min_font_size` when none fits. -/
def searchFontSize (cfg : FitConfig) (lines : List String) (fontSize : ℕ) : ℕ :=
  searchFrom cfg lines fontSize fontSize

/-- The greedy word-wrap loop of lines 455–466. `currentLine` is the Python
`current_line` list of words, `acc` the accumulated `event_name_lines`. -/
def wrapWordsLoop (cfg : FitConfig) (fontSize : ℕ) :
    List String → List String → List String → List String
  | [], currentLine, acc =>
    if currentLine.isEmpty then acc else acc ++ [joinSpace currentLine]
  | word :: ws, currentLine, acc =>
    let testLine := if currentLine.isEmpty then word
      else joinSpace (currentLine ++ [word])
    if cfg.width testLine fontSize ≤ cfg.maxWidth then
      wrapWordsLoop cfg fontSize ws (currentLine ++ [word]) acc
    else if currentLine.isEmpty then
      wrapWordsLoop cfg fontSize ws [word] acc
    else
      wrapWordsLoop cfg fontSize ws [word] (acc ++ [joinSpace currentLine])

/-- The result of the fitting stage: chosen font size, the (possibly
re-wrapped) title lines, and whether the wrap fallback ran. -/
structure FitResult where
  chosenFontSize : ℕ
  lines : List String
  usedWrapFallback : Bool
deriving DecidableEq

/-- Lines 436–470 of `create_event_image`: descending font-size search; if
the search ends below `min_font_size`, re-wrap all words greedily at
`min_font_size` (lines 443–466). -/
def fitTitle (cfg : FitConfig) (lines : List String) : FitResult :=
  let fontSize := searchFontSize cfg lines initial_font_size
  if fontSize < min_font_size then
    let allWords := splitSpace (joinSpace lines)
    { chosenFontSize := min_font_size
      lines := wrapWordsLoop cfg min_font_size allWords [] []
      usedWrapFallback := true }
  else
    { chosenFontSize := fontSize, lines := lines, usedWrapFallback := false }

/-- The quantity the fitter compares against `available_height`
(line 421–422): `len(lines) * (font_size + 0.2 * font_size)`. -/
def fitter_total_height (n fontSize : ℕ) : ℚ :=
  (n : ℚ) * ((fontSize : ℚ) + (fontSize : ℚ) * (1/5))

/-- The height of the title block as actually drawn (lines 473–474):
`len(lines) * (font_size + 0.25 * font_size) - 0.25 * font_size`. -/
def drawn_total_height (n fontSize : ℕ) : ℚ :=
  (n : ℚ) * ((fontSize : ℚ) + (fontSize : ℚ) * (1/4)) - (fontSize : ℚ) * (1/4)

/-- The set of font sizes the descending search actually visits before going
below `min_font_size`: `110, 106, ..., 46, 42` (all `≡ 2 [MOD 4]`). -/
def searchedSize (s : ℕ) : Prop :=
  42 ≤ s ∧ s ≤ 110 ∧ s % 4 = 2

instance : DecidablePred searchedSize := fun s => by
  unfold searchedSize; infer_instance

/-! ### Background fetching (`app.py` lines 61–106) -/

/-- An externally supplied raster image: its pixel dimensions and an opaque
content payload standing for the downloaded bytes. -/
structure RasterImage where
  w : ℕ
  h : ℕ
  content : ℕ
deriving DecidableEq

/-- Function `fetch_background_image(query, page, per_page)` (lines 82–106), after the
HTTP request: `resp = none` models a request failure (any exception reaches
the `except` and returns `None`); `resp = some photos` models a successful
response whose `photos` list is `photos` (a missing or null `photos` key is
the empty list); `download` models fetching and decoding a photo’s
original-resolution bytes (lines 94–99), `none` again meaning an exception.
The selected index is `min((page - 1) % per_page, len(photos) - 1)`
(line 92). -/
def fetch_background_image {α : Type} (page perPage : ℕ)
    (resp : Option (List α)) (download : α → Option RasterImage) :
    Option RasterImage :=
  match resp with
  | none => none
  | some photos =>
    if photos.isEmpty then none
    else
      let photoIndex := min ((page - 1) % perPage) (photos.length - 1)
      match photos[photoIndex]? with
      | some photo => download photo
      | none => none

/-- The background the assembler ends up drawing on. -/
inductive Background where
  | white
  | photo (img : RasterImage)
deriving DecidableEq

/-- Lines 279–297 of `create_event_image`: if a non-blank query is given,
try the fetch and fall back to white on failure; otherwise white
immediately. -/
def resolveBackground (fetch : String → ℕ → Option RasterImage)
    (query : Option String) (page : ℕ) : Background :=
  match query with
  | none => Background.white
  | some q =>
    if pyStrip q ≠ "" then
      match fetch q page with
      | some img => Background.photo img
      | none => Background.white
    else Background.white

/-! ### The drawing pipeline (`app.py` lines 276–502 and 114–223) -/

/-- Montserrat font weights selected by `set_variation_by_name`. -/
inductive Weight where
  | regular
  | semibold
  | bold
deriving DecidableEq

/-- A font instance: Montserrat at a given size and weight, or the PIL
default font (the footer fallback of lines 147–148). -/
inductive FontSel where
  | mont (size : ℕ) (weight : Weight)
  | defaultFont
deriving DecidableEq

/-- One drawing operation of the pipeline, recorded in execution order.
Coordinates are the Python float values (exact rationals here); paste
positions that Python converts with `int(...)` are recorded as integers. -/
inductive Op where
  | whiteCanvas
  | photoCanvas (content : ℕ)
  | panelRect
  | panelBorder
  | accentStripe
  | pasteIcon (name : String) (x y : ℤ)
  | text (s : String) (x y : ℚ) (font : FontSel) (fill : String)
  | footerLogo (x y w h : ℤ)
  | footerText (s : String) (x y : ℚ) (font : FontSel)
  | footerQR (x y : ℤ)
  | footerSeparator (x : ℤ)
deriving DecidableEq

/-- A raster in the pipeline: its dimensions and the recorded operation
trace that determines its pixels. -/
structure Img where
  w : ℕ
  h : ℕ
  ops : List Op
deriving DecidableEq

/-- Python float floor division `a // b`. -/
def pyFloorDiv (a b : ℚ) : ℚ := ((⌊a / b⌋ : ℤ) : ℚ)

/-- The ambient state the renderer reads besides the event fields: text
metrics of the loaded fonts, availability of the static assets (font file,
logo, icons), the catch-all footer failure flag (line 221), the logo’s
native dimensions, the `font.getbbox("Ay")[3]` heights (lines 163–164), and
the image-search collaborator. -/
structure Env where
  width : String → FontSel → ℚ
  fontOk : Bool
  clockIcon : Bool
  calendarIcon : Bool
  logoExists : Bool
  footerOk : Bool
  logoW : ℕ
  logoH : ℕ
  fontHeightAy : FontSel → ℤ
  fetch : String → ℕ → Option RasterImage

/-- The event fields passed to `create_event_image` (line 276). -/
structure EventInputs where
  time : String
  date : String
  event_name : String
  place : String
  address : String
  query : Option String
  page : ℕ

/-- The fitter’s width metric is `draw.textlength` at Bold weight
(lines 417–418, 430). -/
def titleWidth (env : Env) : String → ℕ → ℚ :=
  fun line s => env.width line (FontSel.mont s Weight.bold)

/-- Lines 279–297: the canvas after background acquisition. A fetched photo
is resized to `IMAGE_SIZE`, tinted and blurred (collapsed into the
`photoCanvas` op); otherwise a white 1080×1080 canvas. -/
def backgroundImg : Background → Img
  | Background.white => { w := IMAGE_W, h := IMAGE_H, ops := [Op.whiteCanvas] }
  | Background.photo img =>
    { w := IMAGE_W, h := IMAGE_H, ops := [Op.photoCanvas img.content] }

/-- Lines 300–334: the blue panel, its border and the accent stripe,
composited over the background. -/
def panelImg (img : Img) : Img :=
  { img with ops := img.ops ++ [Op.panelRect, Op.panelBorder, Op.accentStripe] }

/-- Lines 366–402: the datetime row. Icon pastes happen only when the icon
asset resolved; the x positions differ accordingly, exactly as in the
source. -/
def datetimeOps (env : Env) (time date : String) : List Op :=
  let fontDT := FontSel.mont 30 Weight.semibold
  let timeWidth := env.width time fontDT
  let dateWidth := env.width date fontDT
  let iconSpacing : ℚ := 10
  let timeTextX : ℚ :=
    if env.clockIcon then
      center_x - pyFloorDiv (timeWidth + (ICON_SIZE : ℚ) + iconSpacing + 20
        + dateWidth + (ICON_SIZE : ℚ) + iconSpacing) 2 + (ICON_SIZE : ℚ)
        + iconSpacing
    else center_x - pyFloorDiv (timeWidth + 20 + dateWidth) 2
  let clockOps : List Op :=
    if env.clockIcon then
      [Op.pasteIcon "clock"
        (pyInt (timeTextX - (ICON_SIZE : ℚ) - iconSpacing))
        (pyInt (datetime_y - (ICON_SIZE / 2 : ℕ)))]
    else []
  let dateIconX : ℚ := timeTextX + timeWidth + 20
  let dateTextX : ℚ :=
    if env.calendarIcon then dateIconX + (ICON_SIZE : ℚ) + iconSpacing
    else dateIconX
  let calOps : List Op :=
    if env.calendarIcon then
      [Op.pasteIcon "calendar" (pyInt dateIconX)
        (pyInt (datetime_y - (ICON_SIZE / 2 : ℕ)))]
    else []
  clockOps ++ calOps
    ++ [Op.text time timeTextX datetime_y fontDT "white",
        Op.text date dateTextX datetime_y fontDT "white"]

/-- Lines 479–488: draw each title line (shadow first, then white) at the
running y position, advancing by `font_size + line_spacing`. -/
def titleLineOps (s : ℕ) (lineSpacing : ℚ) : List String → ℚ → List Op
  | [], _ => []
  | line :: rest, y =>
    let shadowOffset : ℚ := max 2 ((⌈(s : ℚ) / 30⌉ : ℤ) : ℚ)
    let fontEvent := FontSel.mont s Weight.bold
    Op.text line (center_x + shadowOffset) (y + shadowOffset) fontEvent "shadow"
      :: Op.text line center_x y fontEvent "white"
      :: titleLineOps s lineSpacing rest (y + (s : ℚ) + lineSpacing)

/-- Lines 472–488: the title block, vertically centred in the available
space using the drawn total height (0.25 line spacing, minus one trailing
spacing — formula of lines 473–474). -/
def titleOps (fit : FitResult) : List Op :=
  let s := fit.chosenFontSize
  let lineSpacing : ℚ := (s : ℚ) * (1/4)
  let totalHeight : ℚ := drawn_total_height fit.lines.length s
  let eventNameY : ℚ := datetime_y + 85 + (available_height - totalHeight) / 2
  titleLineOps s lineSpacing fit.lines eventNameY

/-- Lines 490–497: venue (with shadow) and address. -/
def placeAddressOps (place address : String) : List Op :=
  [Op.text place (center_x + 2) (place_y + 2) (FontSel.mont 40 Weight.semibold)
      "shadow",
    Op.text place center_x place_y (FontSel.mont 40 Weight.semibold) "white",
    Op.text address center_x address_y (FontSel.mont 30 Weight.regular) "white"]

/-- The poster before the footer stage: background, panel, datetime row,
fitted title block, venue and address (lines 279–497). -/
def preFooter (env : Env) (inp : EventInputs) : Img :=
  let bg := panelImg (backgroundImg
    (resolveBackground env.fetch inp.query inp.page))
  let fit := fitTitle (titleCfg (titleWidth env))
    (event_name_lines inp.event_name)
  { bg with
    ops := bg.ops ++ datetimeOps env inp.time inp.date ++ titleOps fit
      ++ placeAddressOps inp.place inp.address }

/-- Lines 125–213: the footer decorations, in draw order (logo paste, CTA
text, link text, QR code, separator). The footer fonts fall back to the
default font when the font asset fails to load (lines 139–148) — both font
load sites read the same Montserrat file, modelled by the single `fontOk`
flag. -/
def footerOps (env : Env) : List Op :=
  let logoWidth : ℤ :=
    pyInt ((LOGO_HEIGHT : ℚ) * ((env.logoW : ℚ) / (env.logoH : ℚ)))
  let fontCta := if env.fontOk then FontSel.mont 26 Weight.semibold
    else FontSel.defaultFont
  let fontLink := if env.fontOk then FontSel.mont 32 Weight.bold
    else FontSel.defaultFont
  let ctaText := "RESERVA TU LUGAR EN:"
  let linkText := "de.exatec.info/eventos"
  let ctaWidth := env.width ctaText fontCta
  let linkWidth := env.width linkText fontLink
  let ctaHeight := env.fontHeightAy fontCta
  let linkHeight := env.fontHeightAy fontLink
  let textX : ℚ :=
    (IMAGE_W : ℚ) - 110 - 25 - max ctaWidth linkWidth - 35
  let ctaY : ℤ := Int.fdiv ((FOOTER_HEIGHT : ℤ) - ctaHeight - linkHeight - 8) 2
  let linkY : ℤ := ctaY + ctaHeight + 8
  let qrPosX : ℤ := (IMAGE_W : ℤ) - 110 - 35 - 4
  let qrPosY : ℤ := Int.fdiv ((FOOTER_HEIGHT : ℤ) - 110 - 8) 2
  let separatorX : ℤ := 40 + logoWidth + 40
  [Op.footerLogo 40 (((FOOTER_HEIGHT - LOGO_HEIGHT) / 2 : ℕ) : ℤ) logoWidth
      (LOGO_HEIGHT : ℤ),
    Op.footerText ctaText textX (ctaY : ℚ) fontCta,
    Op.footerText linkText textX (linkY : ℚ) fontLink,
    Op.footerQR (qrPosX - 4) (qrPosY - 4),
    Op.footerSeparator separatorX]

/-- Function `add_footer(image)` (lines 114–223): a missing logo aborts the footer
with a warning and returns the input image unchanged (lines 121–123); any
other exception in the footer body does the same (lines 221–223); otherwise
the decorated 1080×1080 image is rebuilt (lines 216–220). -/
def add_footer (env : Env) (image : Img) : Img × List String :=
  if env.logoExists = false then
    (image, ["Logo not found at path: assets/logo.png"])
  else if env.footerOk = false then
    (image, ["Error adding footer"])
  else
    ({ w := IMAGE_W, h := IMAGE_H, ops := image.ops ++ footerOps env }, [])

/-- Function `create_event_image` (lines 276–502): background, panel, main font load
(fatal on failure, lines 340–355), text layout, footer. Returns the final
image (or `none`) together with the `st.error` messages surfaced. -/
def create_event_image (env : Env) (inp : EventInputs) :
    Option Img × List String :=
  if env.fontOk = false then (none, ["Error loading fonts"])
  else
    let (finalImg, warnings) := add_footer env (preFooter env inp)
    (some finalImg, warnings)

/-- Big-step relation describing one run of `create_event_image`: one
constructor per control path (fatal font failure; missing logo; footer
exception; full success). `renderR_create` below shows the function
implements this relation; `render_deterministic` (claim C9) shows the
relation is a partial function of the environment and inputs. -/
inductive RenderR (env : Env) (inp : EventInputs) :
    Option Img × List String → Prop where
  | fontFail : env.fontOk = false →
      RenderR env inp (none, ["Error loading fonts"])
  | logoMissing : env.fontOk = true → env.logoExists = false →
      RenderR env inp
        (some (preFooter env inp), ["Logo not found at path: assets/logo.png"])
  | footerError : env.fontOk = true → env.logoExists = true →
      env.footerOk = false →
      RenderR env inp (some (preFooter env inp), ["Error adding footer"])
  | success : env.fontOk = true → env.logoExists = true →
      env.footerOk = true →
      RenderR env inp
        (some { w := IMAGE_W, h := IMAGE_H,
                ops := (preFooter env inp).ops ++ footerOps env }, [])

/-- Companion of `wrapWordsLoop` at the level of word groups: identical
branching and tests, but each closed line is kept as its list of words
instead of the joined string. -/
def wrapGroups (cfg : FitConfig) (fontSize : ℕ) :
    List String → List String → List (List String) → List (List String)
  | [], currentLine, acc =>
    if currentLine.isEmpty then acc else acc ++ [currentLine]
  | word :: ws, currentLine, acc =>
    let testLine := if currentLine.isEmpty then word
      else joinSpace (currentLine ++ [word])
    if cfg.width testLine fontSize ≤ cfg.maxWidth then
      wrapGroups cfg fontSize ws (currentLine ++ [word]) acc
    else if currentLine.isEmpty then
      wrapGroups cfg fontSize ws [word] acc
    else
      wrapGroups cfg fontSize ws [word] (acc ++ [currentLine])

/-- A sample environment for witnesses: all assets available, constant zero
metrics, a collaborator that never returns a photo. -/
def sampleEnv : Env :=
  { width := fun _ _ => 0
    fontOk := true
    clockIcon := false
    calendarIcon := false
    logoExists := true
    footerOk := true
    logoW := 300
    logoH := 100
    fontHeightAy := fun _ => 30
    fetch := fun _ _ => none }

/-- Variant of `sampleEnv` with the logo asset missing. -/
def sampleEnvNoLogo : Env :=
  { sampleEnv with logoExists := false }

/-- Variant of `sampleEnv` with the font asset failing to load. -/
def sampleEnvNoFont : Env :=
  { sampleEnv with fontOk := false }

/-- Sample event fields for witnesses. -/
def sampleInputs : EventInputs :=
  { time := "19:00", date := "01.01.2026", event_name := "EXATEC",
    place := "Gasthaus", address := "Bonn", query := none, page := 1 }

/-! ### Evaluated layout constants -/

theorem rect_width_eq : rect_width = 918 := by
  norm_num [rect_width, pyInt, IMAGE_W]; rfl

theorem rect_height_eq : rect_height = 702 := by
  norm_num [rect_height, pyInt, IMAGE_H]; rfl

theorem rect_top_eq : rect_top = 151 := by
  norm_num [rect_top, pyInt, IMAGE_H]; rfl

theorem available_height_eq : available_height = 457 := by
  norm_num [available_height, place_y, datetime_y, rect_top_eq, rect_height_eq]

theorem max_width_eq : max_width = (80784 : ℚ) / 100 := by
  norm_num [max_width, rect_width_eq]

/-! ### Properties of the font-size search -/

theorem searchFrom_le (cfg : FitConfig) (lines : List String) :
    ∀ fuel fontSize, searchFrom cfg lines fuel fontSize ≤ fontSize := by
  intro fuel
  induction fuel with
  | zero => intro fontSize; exact Nat.le_refl _
  | succ n ih =>
    intro fontSize
    simp only [searchFrom]
    split
    · split
      · exact Nat.le_refl _
      · exact Nat.le_trans (ih _) (Nat.sub_le _ _)
    · exact Nat.le_refl _

theorem searchFrom_mod (cfg : FitConfig) (lines : List String) :
    ∀ fuel fontSize, searchFrom cfg lines fuel fontSize % 4 = fontSize % 4 := by
  intro fuel
  induction fuel with
  | zero => intro fontSize; rfl
  | succ n ih =>
    intro fontSize
    by_cases hmin : min_font_size ≤ fontSize
    · by_cases hfit : text_fits cfg lines fontSize = true
      · simp [searchFrom, hmin, hfit]
      · have hmin40 : 40 ≤ fontSize := by simpa [min_font_size] using hmin
        have hstep : searchFrom cfg lines (n + 1) fontSize
            = searchFrom cfg lines n (fontSize - 4) := by
          simp [searchFrom, hmin, hfit]
        rw [hstep, ih]
        omega
    · simp [searchFrom, hmin]

theorem searchFrom_fits (cfg : FitConfig) (lines : List String) :
    ∀ fuel fontSize, fontSize ≤ 4 * fuel →
      min_font_size ≤ searchFrom cfg lines fuel fontSize →
      text_fits cfg lines (searchFrom cfg lines fuel fontSize) = true := by
  intro fuel
  induction fuel with
  | zero =>
    intro fontSize hle h40
    have : fontSize = 0 := by omega
    subst this
    simp [searchFrom, min_font_size] at h40
  | succ n ih =>
    intro fontSize hle h40
    by_cases hmin : min_font_size ≤ fontSize
    · by_cases hfit : text_fits cfg lines fontSize = true
      · simp [searchFrom, hmin, hfit]
      · have hmin40 : 40 ≤ fontSize := by simpa [min_font_size] using hmin
        have hstep : searchFrom cfg lines (n + 1) fontSize
            = searchFrom cfg lines n (fontSize - 4) := by
          simp [searchFrom, hmin, hfit]
        rw [hstep] at h40 ⊢
        exact ih (fontSize - 4) (by omega) h40
    · have hstep : searchFrom cfg lines (n + 1) fontSize = fontSize := by
        simp [searchFrom, hmin]
      rw [hstep] at h40
      exact absurd h40 hmin

theorem searchFrom_max (cfg : FitConfig) (lines : List String) :
    ∀ fuel fontSize s, min_font_size ≤ s → s ≤ fontSize →
      s % 4 = fontSize % 4 → text_fits cfg lines s = true →
      s ≤ searchFrom cfg lines fuel fontSize := by
  intro fuel
  induction fuel with
  | zero => intro fontSize s _ hle _ _; exact hle
  | succ n ih =>
    intro fontSize s hs40 hle hmod hfit
    by_cases hmin : min_font_size ≤ fontSize
    · by_cases hfitF : text_fits cfg lines fontSize = true
      · simpa [searchFrom, hmin, hfitF] using hle
      · have hne : s ≠ fontSize := by
          intro he; rw [he] at hfit; exact hfitF hfit
        have hmin40 : 40 ≤ s := by simpa [min_font_size] using hs40
        have hstep : searchFrom cfg lines (n + 1) fontSize
            = searchFrom cfg lines n (fontSize - 4) := by
          simp [searchFrom, hmin, hfitF]
        rw [hstep]
        exact ih (fontSize - 4) s hs40 (by omega) (by omega) hfit
    · simpa [searchFrom, hmin] using hle

theorem searchFontSize_le (cfg : FitConfig) (lines : List String)
    (fontSize : ℕ) : searchFontSize cfg lines fontSize ≤ fontSize :=
  searchFrom_le cfg lines fontSize fontSize

theorem searchFontSize_fits (cfg : FitConfig) (lines : List String)
    (h : min_font_size ≤ searchFontSize cfg lines initial_font_size) :
    text_fits cfg lines (searchFontSize cfg lines initial_font_size)
      = true :=
  searchFrom_fits cfg lines initial_font_size initial_font_size (by omega) h

theorem searchFontSize_max (cfg : FitConfig) (lines : List String) (s : ℕ)
    (hs : searchedSize s) (hfit : text_fits cfg lines s = true) :
    s ≤ searchFontSize cfg lines initial_font_size := by
  obtain ⟨h42, h110, hmod⟩ := hs
  exact searchFrom_max cfg lines initial_font_size initial_font_size s
    (by simp [min_font_size]; omega) (by simpa [initial_font_size] using h110)
    (by simp [initial_font_size]; omega) hfit

theorem searchFontSize_start_fits (cfg : FitConfig) (lines : List String)
    (fontSize : ℕ) (hmin : min_font_size ≤ fontSize)
    (hfit : text_fits cfg lines fontSize = true) :
    searchFontSize cfg lines fontSize = fontSize := by
  cases fontSize with
  | zero => simp [min_font_size] at hmin
  | succ n => simp [searchFontSize, searchFrom, hmin, hfit]

theorem chosen_searchedSize (cfg : FitConfig) (lines : List String)
    (h : min_font_size ≤ searchFontSize cfg lines initial_font_size) :
    searchedSize (searchFontSize cfg lines initial_font_size) := by
  have hle := searchFontSize_le cfg lines initial_font_size
  have hmod := searchFrom_mod cfg lines initial_font_size initial_font_size
  unfold searchedSize
  unfold searchFontSize at h hle ⊢
  simp only [initial_font_size] at h hle hmod ⊢
  simp only [min_font_size] at h
  omega

theorem fitTitle_of_no_wrap (cfg : FitConfig) (lines : List String)
    (h : min_font_size ≤ searchFontSize cfg lines initial_font_size) :
    fitTitle cfg lines =
      { chosenFontSize := searchFontSize cfg lines initial_font_size,
        lines := lines, usedWrapFallback := false } := by
  simp [fitTitle, Nat.not_lt.mpr h]

theorem fitTitle_of_wrap (cfg : FitConfig) (lines : List String)
    (h : searchFontSize cfg lines initial_font_size < min_font_size) :
    fitTitle cfg lines =
      { chosenFontSize := min_font_size,
        lines := wrapWordsLoop cfg min_font_size
          (splitSpace (joinSpace lines)) [] [],
        usedWrapFallback := true } := by
  simp [fitTitle, h]

theorem wrap_flag_iff (cfg : FitConfig) (lines : List String) :
    (fitTitle cfg lines).usedWrapFallback = true ↔
      searchFontSize cfg lines initial_font_size < min_font_size := by
  by_cases h : searchFontSize cfg lines initial_font_size < min_font_size
  · simp [fitTitle_of_wrap cfg lines h, h]
  · simp [fitTitle_of_no_wrap cfg lines (Nat.le_of_not_lt h), h]

theorem text_fits_iff (cfg : FitConfig) (lines : List String)
    (fontSize : ℕ) :
    text_fits cfg lines fontSize = true ↔
      fitter_total_height lines.length fontSize ≤ cfg.availableHeight
      ∧ ∀ line ∈ lines, cfg.width line fontSize ≤ cfg.maxWidth := by
  unfold text_fits fitter_total_height
  by_cases h : cfg.availableHeight <
      (lines.length : ℚ) * ((fontSize : ℚ) + (fontSize : ℚ) * (1/5))
  · simp only [h, if_true]
    constructor
    · intro hfalse; cases hfalse
    · rintro ⟨hle, -⟩
      exact absurd h (not_lt.mpr hle)
  · simp [h, not_lt.mp h, List.all_eq_true]

theorem drawn_le_fitter_of_le_five (n s : ℕ) (h : n ≤ 5) :
    drawn_total_height n s ≤ fitter_total_height n s := by
  unfold drawn_total_height fitter_total_height
  have hs : (0 : ℚ) ≤ (s : ℚ) := Nat.cast_nonneg s
  have hn : (n : ℚ) ≤ 5 := by exact_mod_cast h
  nlinarith [mul_nonneg (sub_nonneg.mpr hn) hs]

/-! ### Claim C1 -/

/-- Claim C1 (confirmed): the fitter searches sizes descending from
`initial_font_size = 110` in steps of 4 (down to `min_font_size = 40`) and
returns the first — hence the largest — visited size satisfying both the
height and the per-line width constraint; in particular a title that
already fits at the start size is given exactly the start size. -/
theorem fitter_chooses_first_fitting_size (cfg : FitConfig)
    (lines : List String) :
    (text_fits cfg lines initial_font_size = true →
      fitTitle cfg lines =
        { chosenFontSize := initial_font_size, lines := lines,
          usedWrapFallback := false })
    ∧ (∀ s, searchedSize s → text_fits cfg lines s = true →
        (fitTitle cfg lines).usedWrapFallback = false
        ∧ searchedSize (fitTitle cfg lines).chosenFontSize
        ∧ text_fits cfg lines (fitTitle cfg lines).chosenFontSize = true
        ∧ ∀ t, searchedSize t → text_fits cfg lines t = true →
            t ≤ (fitTitle cfg lines).chosenFontSize) := by
  constructor
  · intro hfit
    have hstart : searchFontSize cfg lines initial_font_size
        = initial_font_size :=
      searchFontSize_start_fits cfg lines initial_font_size
        (by simp [min_font_size, initial_font_size]) hfit
    rw [fitTitle_of_no_wrap cfg lines (by
      rw [hstart]; simp [min_font_size, initial_font_size])]
    simp [hstart]
  · intro s hs hfit
    have hsr := searchFontSize_max cfg lines s hs hfit
    have h40 : min_font_size ≤ searchFontSize cfg lines initial_font_size := by
      obtain ⟨h42, -, -⟩ := hs
      simp only [min_font_size]
      omega
    have heq := fitTitle_of_no_wrap cfg lines h40
    refine ⟨by simp [heq], by simpa [heq] using chosen_searchedSize cfg lines h40,
      by simpa [heq] using searchFontSize_fits cfg lines h40, ?_⟩
    intro t ht htfit
    simpa [heq] using searchFontSize_max cfg lines t ht htfit

/-- Witness for C1: with a metric that makes every line fit, a one-line
title is set at exactly 110. -/
theorem fitter_chooses_first_fitting_size_witness :
    fitTitle (titleCfg fun _ _ => (0 : ℚ)) ["HELLO"] =
      { chosenFontSize := 110, lines := ["HELLO"],
        usedWrapFallback := false } := by
  have h := (fitter_chooses_first_fitting_size
    (titleCfg fun _ _ => (0 : ℚ)) ["HELLO"]).1
  have hf : text_fits (titleCfg fun _ _ => (0 : ℚ)) ["HELLO"]
      initial_font_size = true := by
    norm_num [text_fits, titleCfg, initial_font_size, available_height_eq,
      max_width_eq]
  simpa [initial_font_size] using h hf

/-! ### Claim C2 -/

/-- Claim C2 (counterexample): a seven-line title whose lines measure
`s / 10` wide is set at size 54 without the wrap fallback, yet the drawn
title-block height `7 * (54 + 0.25 * 54) - 0.25 * 54 = 459` exceeds the
bounding height `available_height = 457`: the fitter checks the spacing
formula `0.2 * s` with no trailing-spacing subtraction, not the drawing
formula of lines 473–474. -/
theorem fitted_title_overflows_drawn_height :
    (fitTitle (titleCfg fun _ s => (s : ℚ) / 10)
        ["A", "A", "A", "A", "A", "A", "A"]).usedWrapFallback = false
    ∧ (fitTitle (titleCfg fun _ s => (s : ℚ) / 10)
        ["A", "A", "A", "A", "A", "A", "A"]).chosenFontSize = 54
    ∧ (fitTitle (titleCfg fun _ s => (s : ℚ) / 10)
        ["A", "A", "A", "A", "A", "A", "A"]).lines.length = 7
    ∧ available_height < drawn_total_height 7 54 := by
  have hsearch : searchFontSize (titleCfg fun _ s => (s : ℚ) / 10)
      ["A", "A", "A", "A", "A", "A", "A"] initial_font_size = 54 := by
    norm_num [searchFontSize, searchFrom, text_fits, titleCfg, min_font_size,
      initial_font_size, available_height_eq, max_width_eq]
  have heq := fitTitle_of_no_wrap (titleCfg fun _ s => (s : ℚ) / 10)
    ["A", "A", "A", "A", "A", "A", "A"]
    (by rw [hsearch]; simp [min_font_size])
  rw [heq, hsearch]
  refine ⟨rfl, rfl, rfl, ?_⟩
  rw [available_height_eq]
  norm_num [drawn_total_height]

/-- Claim C2 (amended): when the fitter chooses a size without the wrap
fallback, every line's rendered width at the chosen size is at most
`max_width`, and the height quantity the fitter actually bounds —
`count(lines) * (s + 0.2 * s)`, with spacing `0.2 * s` and no
trailing-spacing subtraction — is at most `available_height`; the drawn
block height (`0.25 * s` spacing minus one trailing spacing, lines 473–474)
is also within the bound whenever the title has at most five lines. -/
theorem fitter_width_and_height_guarantees (w : String → ℕ → ℚ)
    (lines : List String)
    (h : (fitTitle (titleCfg w) lines).usedWrapFallback = false) :
    (∀ line ∈ (fitTitle (titleCfg w) lines).lines,
        w line (fitTitle (titleCfg w) lines).chosenFontSize ≤ max_width)
    ∧ fitter_total_height lines.length
        (fitTitle (titleCfg w) lines).chosenFontSize ≤ available_height
    ∧ (lines.length ≤ 5 →
        drawn_total_height lines.length
          (fitTitle (titleCfg w) lines).chosenFontSize ≤ available_height) := by
  have h40 : min_font_size ≤ searchFontSize (titleCfg w) lines
      initial_font_size := by
    by_contra hlt
    rw [fitTitle_of_wrap (titleCfg w) lines (Nat.lt_of_not_le hlt)] at h
    cases h
  have heq := fitTitle_of_no_wrap (titleCfg w) lines h40
  have hfits := searchFontSize_fits (titleCfg w) lines h40
  rw [text_fits_iff] at hfits
  obtain ⟨hheight, hwidth⟩ := hfits
  rw [heq]
  refine ⟨hwidth, hheight, fun hfive => ?_⟩
  exact le_trans (drawn_le_fitter_of_le_five lines.length _ hfive) hheight

/-- Witness for the amended C2: a one-line title fitting at 110. -/
theorem fitter_width_and_height_guarantees_witness :
    fitter_total_height 1 (fitTitle (titleCfg fun _ _ => (0 : ℚ))
      ["EXATEC"]).chosenFontSize ≤ available_height
    ∧ drawn_total_height 1 (fitTitle (titleCfg fun _ _ => (0 : ℚ))
        ["EXATEC"]).chosenFontSize ≤ available_height := by
  have hwrap : (fitTitle (titleCfg fun _ _ => (0 : ℚ))
      ["EXATEC"]).usedWrapFallback = false := by
    norm_num [fitTitle, searchFontSize, searchFrom, text_fits, titleCfg,
      min_font_size, initial_font_size, available_height_eq, max_width_eq]
  have h := fitter_width_and_height_guarantees (fun _ _ => (0 : ℚ))
    ["EXATEC"] hwrap
  exact ⟨by simpa using h.2.1, by simpa using h.2.2 (by norm_num)⟩

/-! ### Claim C3 -/

/-- Claim C3 (counterexample): with a metric measuring every line as
`20 * s`, the single-line title fits at size 40
(`20 * 40 = 800 ≤ 807.84`) but at no size the loop visits
(`20 * 42 = 840 > 807.84`), and the wrap fallback triggers — though size
40 lies in `[min_font_size, initial_font_size]` and satisfies both
constraints. The loop `110, 106, ..., 46, 42` never tests 40. -/
theorem wrap_despite_fit_at_min_size :
    (fitTitle (titleCfg fun _ s => 20 * (s : ℚ)) ["X"]).usedWrapFallback
      = true
    ∧ text_fits (titleCfg fun _ s => 20 * (s : ℚ)) ["X"] min_font_size
      = true := by
  constructor
  · have hsearch : searchFontSize (titleCfg fun _ s => 20 * (s : ℚ))
        ["X"] initial_font_size = 38 := by
      norm_num [searchFontSize, searchFrom, text_fits, titleCfg,
        min_font_size, initial_font_size, available_height_eq, max_width_eq]
    rw [wrap_flag_iff, hsearch]
    simp [min_font_size]
  · norm_num [text_fits, titleCfg, min_font_size, available_height_eq,
      max_width_eq]

/-- Claim C3 (amended): the wrap fallback triggers exactly when no size the
descending loop actually visits — `110, 106, ..., 46, 42`, i.e. the sizes
`s` with `searchedSize s` — satisfies both constraints. Since
`110 % 4 = 2 ≠ 40 % 4`, the loop stops after 42 and `min_font_size = 40`
itself is never tested. -/
theorem wrap_iff_no_searched_size_fits (cfg : FitConfig)
    (lines : List String) :
    (fitTitle cfg lines).usedWrapFallback = true ↔
      ∀ s, searchedSize s → text_fits cfg lines s = false := by
  rw [wrap_flag_iff]
  constructor
  · intro hlt s hs
    cases hq : text_fits cfg lines s with
    | false => rfl
    | true =>
      exfalso
      have hsr := searchFontSize_max cfg lines s hs hq
      obtain ⟨h42, -, -⟩ := hs
      simp only [min_font_size] at hlt
      omega
  · intro hall
    by_contra hnot
    have h40 : min_font_size ≤ searchFontSize cfg lines initial_font_size :=
      Nat.le_of_not_lt hnot
    have hfits := searchFontSize_fits cfg lines h40
    rw [hall _ (chosen_searchedSize cfg lines h40)] at hfits
    cases hfits

/-- Witness for the amended C3: a metric too wide for every visited size
makes the wrap trigger, and `text_fits` then fails at 110 in particular. -/
theorem wrap_iff_no_searched_size_fits_witness :
    text_fits (titleCfg fun _ _ => (10000 : ℚ)) ["X"] 110 = false := by
  have hsearch : searchFontSize (titleCfg fun _ _ => (10000 : ℚ))
      ["X"] initial_font_size = 38 := by
    norm_num [searchFontSize, searchFrom, text_fits, titleCfg,
      min_font_size, initial_font_size, available_height_eq, max_width_eq]
  have h := (wrap_iff_no_searched_size_fits
    (titleCfg fun _ _ => (10000 : ℚ)) ["X"]).mp
  exact h (by rw [wrap_flag_iff, hsearch]; simp [min_font_size]) 110
    (by unfold searchedSize; omega)

/-! ### Character-level string lemmas -/

theorem mk_data (s : String) : String.mk s.data = s := by
  cases s; rfl

theorem mk_append (u v : List Char) :
    String.mk (u ++ v) = String.mk u ++ String.mk v := rfl

theorem mem_splitOnP_no_sep {α : Type} (p : α → Bool) :
    ∀ (xs l : List α), l ∈ xs.splitOnP p → ∀ a ∈ l, p a = false := by
  intro xs
  induction xs with
  | nil =>
    intro l hl a ha
    simp only [List.splitOnP_nil, List.mem_singleton] at hl
    subst hl
    cases ha
  | cons x xs ih =>
    intro l hl a ha
    rw [List.splitOnP_cons] at hl
    by_cases hx : p x = true
    · rw [if_pos hx] at hl
      rcases List.mem_cons.mp hl with h1 | h2
      · subst h1; cases ha
      · exact ih l h2 a ha
    · rw [if_neg hx] at hl
      cases hsp : xs.splitOnP p with
      | nil => exact absurd hsp (List.splitOnP_ne_nil p xs)
      | cons hd tl =>
        rw [hsp, List.modifyHead] at hl
        rcases List.mem_cons.mp hl with h1 | h2
        · subst h1
          rcases List.mem_cons.mp ha with rfl | ha2
          · exact Bool.eq_false_iff.mpr hx
          · exact ih hd (hsp ▸ List.mem_cons_self hd tl) a ha2
        · exact ih l (hsp ▸ List.mem_cons_of_mem hd h2) a ha

theorem splitSpace_words_good (s : String) :
    ∀ u ∈ splitSpace s, u ≠ "" ∧ ' ' ∉ u.data := by
  intro u hu
  unfold splitSpace at hu
  rcases List.mem_map.mp hu with ⟨l, hl, rfl⟩
  rcases List.mem_filter.mp hl with ⟨hmem, hneB⟩
  have hlne : l ≠ [] := by simpa using hneB
  constructor
  · intro he
    apply hlne
    have : (String.mk l).data = ("" : String).data := by rw [he]
    simpa using this
  · intro hsp
    have hdata : (String.mk l).data = l := rfl
    rw [hdata] at hsp
    have := mem_splitOnP_no_sep (fun c => c == ' ') s.data l hmem ' ' hsp
    simp at this

theorem intercalate_single {α : Type} (sep x : List α) :
    List.intercalate sep [x] = x := by
  simp [List.intercalate]

theorem intercalate_two {α : Type} (sep : List α) (x y : List α)
    (l : List (List α)) :
    List.intercalate sep (x :: y :: l)
      = x ++ sep ++ List.intercalate sep (y :: l) := by
  simp [List.intercalate]

theorem intercalate_append_single {α : Type} (sep : List α) :
    ∀ (ls : List (List α)) (b : List α), ls ≠ [] →
      List.intercalate sep (ls ++ [b])
        = List.intercalate sep ls ++ sep ++ b := by
  intro ls
  induction ls with
  | nil => intro b h; exact absurd rfl h
  | cons x ls ih =>
    intro b _
    cases ls with
    | nil => simp [intercalate_two, intercalate_single]
    | cons y ls2 =>
      have h1 : (x :: y :: ls2) ++ [b] = x :: y :: (ls2 ++ [b]) := by simp
      have h2 := ih b (List.cons_ne_nil y ls2)
      have h3 : (y :: ls2) ++ [b] = y :: (ls2 ++ [b]) := by simp
      rw [h3] at h2
      rw [h1, intercalate_two, intercalate_two, h2]
      simp [List.append_assoc]

theorem joinSpace_single (b : String) : joinSpace [b] = b := by
  unfold joinSpace
  rw [List.map_singleton, intercalate_single, mk_data]

theorem joinSpace_append (l : List String) (b : String) (h : l ≠ []) :
    joinSpace (l ++ [b]) = joinSpace l ++ " " ++ b := by
  unfold joinSpace
  rw [List.map_append, List.map_singleton,
    intercalate_append_single [' '] (l.map String.data) b.data
      (by simpa using h),
    mk_append, mk_append, mk_data]

theorem splitSpace_empty : splitSpace "" = [] := rfl

theorem splitSpace_joinSpace (g : List String) (hne : g ≠ [])
    (hgood : ∀ u ∈ g, u ≠ "" ∧ ' ' ∉ u.data) :
    splitSpace (joinSpace g) = g := by
  unfold splitSpace joinSpace
  have hdata : (String.mk (List.intercalate [' '] (g.map String.data))).data
      = List.intercalate [' '] (g.map String.data) := rfl
  rw [hdata]
  have hsplit : (List.intercalate [' '] (g.map String.data)).splitOn ' '
      = g.map String.data := by
    apply List.splitOn_intercalate (g.map String.data) ' '
    · intro l hl
      rcases List.mem_map.mp hl with ⟨u, hu, rfl⟩
      exact (hgood u hu).2
    · simpa using hne
  rw [hsplit]
  have hfil : (g.map String.data).filter (fun l => l ≠ []) = g.map String.data := by
    apply List.filter_eq_self.mpr
    intro l hl
    rcases List.mem_map.mp hl with ⟨u, hu, rfl⟩
    simpa using fun hd => (hgood u hu).1 (by
      have : String.mk u.data = String.mk [] := by rw [hd]
      simpa [mk_data] using this)
  rw [hfil, List.map_map]
  have : (String.mk ∘ String.data) = id := by
    funext u; exact mk_data u
  rw [this, List.map_id]

/-! ### Properties of the greedy wrap -/

theorem wrapWordsLoop_eq_groups (cfg : FitConfig) (fontSize : ℕ) :
    ∀ (ws currentLine : List String) (acc : List (List String)),
      wrapWordsLoop cfg fontSize ws currentLine (acc.map joinSpace)
        = (wrapGroups cfg fontSize ws currentLine acc).map joinSpace := by
  intro ws
  induction ws with
  | nil =>
    intro cur acc
    by_cases hc : cur.isEmpty = true
    · simp [wrapWordsLoop, wrapGroups, hc]
    · simp [wrapWordsLoop, wrapGroups, hc]
  | cons word ws ih =>
    intro cur acc
    simp only [wrapWordsLoop, wrapGroups]
    by_cases hw : cfg.width (if cur.isEmpty then word
        else joinSpace (cur ++ [word])) fontSize ≤ cfg.maxWidth
    · simp only [if_pos hw]
      exact ih (cur ++ [word]) acc
    · simp only [if_neg hw]
      by_cases hc : cur.isEmpty = true
      · simp only [hc, if_true]
        exact ih [word] acc
      · simp only [hc, if_false, Bool.false_eq_true]
        have hmap : List.map joinSpace acc ++ [joinSpace cur]
            = List.map joinSpace (acc ++ [cur]) := by simp
        rw [hmap]
        exact ih [word] (acc ++ [cur])

theorem wrapGroups_flatten (cfg : FitConfig) (fontSize : ℕ) :
    ∀ (ws currentLine : List String) (acc : List (List String)),
      (wrapGroups cfg fontSize ws currentLine acc).flatten
        = acc.flatten ++ currentLine ++ ws := by
  intro ws
  induction ws with
  | nil =>
    intro cur acc
    by_cases hc : cur.isEmpty = true
    · have : cur = [] := by simpa using hc
      simp [wrapGroups, hc, this]
    · simp [wrapGroups, hc]
  | cons word ws ih =>
    intro cur acc
    simp only [wrapGroups]
    by_cases hw : cfg.width (if cur.isEmpty then word
        else joinSpace (cur ++ [word])) fontSize ≤ cfg.maxWidth
    · rw [if_pos hw, ih]
      simp
    · rw [if_neg hw]
      by_cases hc : cur.isEmpty = true
      · have hnil : cur = [] := by simpa using hc
        rw [if_pos hc, ih, hnil]
        simp
      · rw [if_neg hc, ih]
        simp

theorem wrapGroups_ne_nil (cfg : FitConfig) (fontSize : ℕ) :
    ∀ (ws currentLine : List String) (acc : List (List String)),
      (∀ g ∈ acc, g ≠ []) →
      ∀ g ∈ wrapGroups cfg fontSize ws currentLine acc, g ≠ [] := by
  intro ws
  induction ws with
  | nil =>
    intro cur acc hacc g hg
    by_cases hc : cur.isEmpty = true
    · rw [wrapGroups, if_pos hc] at hg
      exact hacc g hg
    · rw [wrapGroups, if_neg hc] at hg
      rcases List.mem_append.mp hg with h1 | h2
      · exact hacc g h1
      · rw [List.mem_singleton] at h2
        subst h2
        simpa using hc
  | cons word ws ih =>
    intro cur acc hacc g hg
    rw [wrapGroups] at hg
    by_cases hw : cfg.width (if cur.isEmpty then word
        else joinSpace (cur ++ [word])) fontSize ≤ cfg.maxWidth
    · rw [if_pos hw] at hg
      exact ih (cur ++ [word]) acc hacc g hg
    · rw [if_neg hw] at hg
      by_cases hc : cur.isEmpty = true
      · rw [if_pos hc] at hg
        exact ih [word] acc hacc g hg
      · rw [if_neg hc] at hg
        refine ih [word] (acc ++ [cur]) ?_ g hg
        intro g2 hg2
        rcases List.mem_append.mp hg2 with h1 | h2
        · exact hacc g2 h1
        · rw [List.mem_singleton] at h2
          subst h2
          simpa using hc

theorem wrapWordsLoop_lines_ok (cfg : FitConfig) (fontSize : ℕ)
    (W : List String) :
    ∀ (ws currentLine : List String) (acc : List String),
      (∀ u ∈ currentLine, u ∈ W) →
      (currentLine ≠ [] →
        cfg.width (joinSpace currentLine) fontSize ≤ cfg.maxWidth
        ∨ ∃ u, currentLine = [u]) →
      (∀ l ∈ acc, cfg.width l fontSize ≤ cfg.maxWidth ∨ l ∈ W) →
      (∀ u ∈ ws, u ∈ W) →
      ∀ l ∈ wrapWordsLoop cfg fontSize ws currentLine acc,
        cfg.width l fontSize ≤ cfg.maxWidth ∨ l ∈ W := by
  intro ws
  induction ws with
  | nil =>
    intro cur acc hcur hinv hacc _ l hl
    by_cases hc : cur.isEmpty = true
    · rw [wrapWordsLoop, if_pos hc] at hl
      exact hacc l hl
    · rw [wrapWordsLoop, if_neg hc] at hl
      rcases List.mem_append.mp hl with h1 | h2
      · exact hacc l h1
      · rw [List.mem_singleton] at h2
        subst h2
        rcases hinv (by simpa using hc) with hle | ⟨u, rfl⟩
        · exact Or.inl hle
        · rw [joinSpace_single]
          exact Or.inr (hcur u (List.mem_singleton_self u))
  | cons word ws ih =>
    intro cur acc hcur hinv hacc hws l hl
    rw [wrapWordsLoop] at hl
    have hwordW : word ∈ W := hws word (List.mem_cons_self word ws)
    have hwsW : ∀ u ∈ ws, u ∈ W :=
      fun u hu => hws u (List.mem_cons_of_mem word hu)
    by_cases hw : cfg.width (if cur.isEmpty then word
        else joinSpace (cur ++ [word])) fontSize ≤ cfg.maxWidth
    · rw [if_pos hw] at hl
      refine ih (cur ++ [word]) acc ?_ ?_ hacc hwsW l hl
      · intro u hu
        rcases List.mem_append.mp hu with h1 | h2
        · exact hcur u h1
        · rw [List.mem_singleton] at h2; subst h2; exact hwordW
      · intro _
        by_cases hc : cur.isEmpty = true
        · have : cur = [] := by simpa using hc
          subst this
          exact Or.inr ⟨word, rfl⟩
        · rw [if_neg hc] at hw
          exact Or.inl hw
    · rw [if_neg hw] at hl
      by_cases hc : cur.isEmpty = true
      · rw [if_pos hc] at hl
        refine ih [word] acc ?_ ?_ hacc hwsW l hl
        · intro u hu
          rw [List.mem_singleton] at hu; subst hu; exact hwordW
        · intro _; exact Or.inr ⟨word, rfl⟩
      · rw [if_neg hc] at hl
        refine ih [word] (acc ++ [joinSpace cur]) ?_ ?_ ?_ hwsW l hl
        · intro u hu
          rw [List.mem_singleton] at hu; subst hu; exact hwordW
        · intro _; exact Or.inr ⟨word, rfl⟩
        · intro l2 hl2
          rcases List.mem_append.mp hl2 with h1 | h2
          · exact hacc l2 h1
          · rw [List.mem_singleton] at h2
            subst h2
            rcases hinv (by simpa using hc) with hle | ⟨u, rfl⟩
            · exact Or.inl hle
            · rw [joinSpace_single]
              exact Or.inr (hcur u (List.mem_singleton_self u))

theorem acc_mem_wrapWordsLoop (cfg : FitConfig) (fontSize : ℕ) :
    ∀ (ws currentLine acc : List String),
      ∀ l ∈ acc, l ∈ wrapWordsLoop cfg fontSize ws currentLine acc := by
  intro ws
  induction ws with
  | nil =>
    intro cur acc l hl
    by_cases hc : cur.isEmpty = true
    · rw [wrapWordsLoop, if_pos hc]; exact hl
    · rw [wrapWordsLoop, if_neg hc]
      exact List.mem_append_left _ hl
  | cons word ws ih =>
    intro cur acc l hl
    rw [wrapWordsLoop]
    by_cases hw : cfg.width (if cur.isEmpty then word
        else joinSpace (cur ++ [word])) fontSize ≤ cfg.maxWidth
    · rw [if_pos hw]; exact ih (cur ++ [word]) acc l hl
    · rw [if_neg hw]
      by_cases hc : cur.isEmpty = true
      · rw [if_pos hc]; exact ih [word] acc l hl
      · rw [if_neg hc]
        exact ih [word] (acc ++ [joinSpace cur]) l
          (List.mem_append_left _ hl)

theorem overlong_head_stays (cfg : FitConfig) (fontSize : ℕ) (u : String)
    (hmonoL : ∀ a b : String,
      cfg.width a fontSize ≤ cfg.width (a ++ " " ++ b) fontSize)
    (hu : cfg.maxWidth < cfg.width u fontSize) :
    ∀ (ws acc : List String), u ∈ wrapWordsLoop cfg fontSize ws [u] acc := by
  intro ws
  induction ws with
  | nil =>
    intro acc
    rw [wrapWordsLoop]
    simp [joinSpace_single]
  | cons word ws ih =>
    intro acc
    rw [wrapWordsLoop]
    have ht : joinSpace ([u] ++ [word]) = u ++ " " ++ word := by
      rw [joinSpace_append [u] word (List.cons_ne_nil u []), joinSpace_single]
    have hgt : ¬ cfg.width (if ([u] : List String).isEmpty then word
        else joinSpace ([u] ++ [word])) fontSize ≤ cfg.maxWidth := by
      simp only [List.isEmpty_cons, if_false, Bool.false_eq_true]
      rw [ht]
      exact not_le.mpr (lt_of_lt_of_le hu (hmonoL u word))
    rw [if_neg hgt]
    simp only [List.isEmpty_cons, if_false, Bool.false_eq_true]
    rw [joinSpace_single]
    exact acc_mem_wrapWordsLoop cfg fontSize ws [word] (acc ++ [u]) u
      (List.mem_append_right acc (List.mem_singleton_self u))

theorem overlong_word_in_wrap (cfg : FitConfig) (fontSize : ℕ) (u : String)
    (hmonoL : ∀ a b : String,
      cfg.width a fontSize ≤ cfg.width (a ++ " " ++ b) fontSize)
    (hmonoR : ∀ a b : String,
      cfg.width b fontSize ≤ cfg.width (a ++ " " ++ b) fontSize)
    (hu : cfg.maxWidth < cfg.width u fontSize) :
    ∀ (ws currentLine acc : List String), u ∈ ws →
      u ∈ wrapWordsLoop cfg fontSize ws currentLine acc := by
  intro ws
  induction ws with
  | nil => intro _ _ h; cases h
  | cons word ws ih =>
    intro cur acc hmem
    rcases List.mem_cons.mp hmem with rfl | hmem2
    · rw [wrapWordsLoop]
      by_cases hc : cur.isEmpty = true
      · have hnil : cur = [] := by simpa using hc
        subst hnil
        have hgt : ¬ cfg.width (if ([] : List String).isEmpty then u
            else joinSpace ([] ++ [u])) fontSize ≤ cfg.maxWidth := by
          simpa using not_le.mpr hu
        rw [if_neg hgt]
        simp only [List.isEmpty_nil, if_true]
        exact overlong_head_stays cfg fontSize u hmonoL hu ws acc
      · have hcur : cur ≠ [] := by simpa using hc
        have ht : joinSpace (cur ++ [u]) = joinSpace cur ++ " " ++ u :=
          joinSpace_append cur u hcur
        have hgt : ¬ cfg.width (if cur.isEmpty then u
            else joinSpace (cur ++ [u])) fontSize ≤ cfg.maxWidth := by
          rw [if_neg hc, ht]
          exact not_le.mpr (lt_of_lt_of_le hu (hmonoR (joinSpace cur) u))
        rw [if_neg hgt, if_neg hc]
        exact overlong_head_stays cfg fontSize u hmonoL hu ws
          (acc ++ [joinSpace cur])
    · rw [wrapWordsLoop]
      by_cases hw : cfg.width (if cur.isEmpty then word
          else joinSpace (cur ++ [word])) fontSize ≤ cfg.maxWidth
      · rw [if_pos hw]; exact ih (cur ++ [word]) acc hmem2
      · rw [if_neg hw]
        by_cases hc : cur.isEmpty = true
        · rw [if_pos hc]; exact ih [word] acc hmem2
        · rw [if_neg hc]; exact ih [word] (acc ++ [joinSpace cur]) hmem2

/-! ### Claim C4 -/

/-- Claim C4 (confirmed): in the wrap fallback, any produced line whose
rendered width at `min_font_size` exceeds `max_width` is exactly one
unsplit word of the title (an element of the word sequence, containing no
space); every other produced line measures at most `max_width`; and,
conversely, any overlong word is placed alone as a full line (unsplit).
The converse direction uses that the metric cannot shrink when a string is
extended on either side by a space-joined word — true of any real font. -/
theorem wrap_overlong_words_alone (w : String → ℕ → ℚ)
    (lines : List String)
    (hmono : ∀ a b : String,
      w a min_font_size ≤ w (a ++ " " ++ b) min_font_size
      ∧ w b min_font_size ≤ w (a ++ " " ++ b) min_font_size)
    (hwrap : (fitTitle (titleCfg w) lines).usedWrapFallback = true) :
    (∀ l ∈ (fitTitle (titleCfg w) lines).lines,
        max_width < w l min_font_size →
          l ∈ splitSpace (joinSpace lines) ∧ ' ' ∉ l.data)
    ∧ ∀ u ∈ splitSpace (joinSpace lines),
        max_width < w u min_font_size →
          u ∈ (fitTitle (titleCfg w) lines).lines := by
  have hlt := (wrap_flag_iff (titleCfg w) lines).mp hwrap
  have heq := fitTitle_of_wrap (titleCfg w) lines hlt
  rw [heq]
  constructor
  · intro l hl hwide
    have hgood := wrapWordsLoop_lines_ok (titleCfg w) min_font_size
      (splitSpace (joinSpace lines)) (splitSpace (joinSpace lines)) [] []
      (by intro u hu; cases hu) (by intro h; exact absurd rfl h)
      (by intro l2 hl2; cases hl2) (fun u hu => hu) l hl
    rcases hgood with hle | hmem
    · exact absurd hwide (not_lt.mpr hle)
    · exact ⟨hmem, (splitSpace_words_good (joinSpace lines) l hmem).2⟩
  · intro u hu hwide
    exact overlong_word_in_wrap (titleCfg w) min_font_size u
      (fun a b => (hmono a b).1) (fun a b => (hmono a b).2) hwide
      (splitSpace (joinSpace lines)) [] [] hu

/-- Witness for C4: a constant metric of 900 overflows `max_width = 807.84`
at every size, so the two-word title is wrapped and the overlong word
`"AB"` lands alone as a full line. -/
theorem wrap_overlong_words_alone_witness :
    "AB" ∈ (fitTitle (titleCfg fun _ _ => (900 : ℚ)) ["AB CD"]).lines := by
  have hsearch : searchFontSize (titleCfg fun _ _ => (900 : ℚ)) ["AB CD"]
      initial_font_size = 38 := by
    norm_num [searchFontSize, searchFrom, text_fits, titleCfg, min_font_size,
      initial_font_size, available_height_eq, max_width_eq]
  have hwrap : (fitTitle (titleCfg fun _ _ => (900 : ℚ))
      ["AB CD"]).usedWrapFallback = true := by
    rw [wrap_flag_iff, hsearch]
    simp [min_font_size]
  have h := (wrap_overlong_words_alone (fun _ _ => (900 : ℚ)) ["AB CD"]
    (fun _ _ => ⟨le_rfl, le_rfl⟩) hwrap).2
  have hmem : "AB" ∈ splitSpace (joinSpace ["AB CD"]) := by decide
  exact h "AB" hmem (by rw [max_width_eq]; norm_num)

/-! ### Claim C10 -/

theorem wrap_lines_splitSpace (cfg : FitConfig) (lines : List String) :
    ((wrapWordsLoop cfg min_font_size (splitSpace (joinSpace lines))
        [] []).map splitSpace).flatten
      = splitSpace (joinSpace lines)
    ∧ ∀ l ∈ wrapWordsLoop cfg min_font_size
        (splitSpace (joinSpace lines)) [] [], l ≠ "" := by
  have hloop : wrapWordsLoop cfg min_font_size
      (splitSpace (joinSpace lines)) [] []
      = (wrapGroups cfg min_font_size (splitSpace (joinSpace lines))
          [] []).map joinSpace := by
    have := wrapWordsLoop_eq_groups cfg min_font_size
      (splitSpace (joinSpace lines)) [] []
    simpa using this
  have hflat : (wrapGroups cfg min_font_size (splitSpace (joinSpace lines))
      [] []).flatten = splitSpace (joinSpace lines) := by
    have := wrapGroups_flatten cfg min_font_size
      (splitSpace (joinSpace lines)) [] []
    simpa using this
  have hne : ∀ g ∈ wrapGroups cfg min_font_size
      (splitSpace (joinSpace lines)) [] [], g ≠ [] :=
    wrapGroups_ne_nil cfg min_font_size (splitSpace (joinSpace lines)) [] []
      (by intro g hg; cases hg)
  have hgmem : ∀ g ∈ wrapGroups cfg min_font_size
      (splitSpace (joinSpace lines)) [] [],
      ∀ x ∈ g, x ∈ splitSpace (joinSpace lines) := by
    intro g hg x hx
    rw [← hflat]
    exact List.mem_flatten.mpr ⟨g, hg, hx⟩
  have hstage : ∀ g ∈ wrapGroups cfg min_font_size
      (splitSpace (joinSpace lines)) [] [],
      splitSpace (joinSpace g) = g := by
    intro g hg
    exact splitSpace_joinSpace g (hne g hg)
      (fun u hu => splitSpace_words_good (joinSpace lines) u (hgmem g hg u hu))
  constructor
  · rw [hloop, List.map_map]
    have hmapeq : (wrapGroups cfg min_font_size
        (splitSpace (joinSpace lines)) [] []).map (splitSpace ∘ joinSpace)
        = (wrapGroups cfg min_font_size
            (splitSpace (joinSpace lines)) [] []).map id := by
      apply List.map_congr_left
      intro g hg
      exact hstage g hg
    rw [hmapeq, List.map_id, hflat]
  · intro l hl
    rw [hloop] at hl
    rcases List.mem_map.mp hl with ⟨g, hg, rfl⟩
    intro hempty
    apply hne g hg
    have := hstage g hg
    rw [hempty, splitSpace_empty] at this
    exact this.symm

/-- Claim C10 (confirmed): the greedy re-wrap preserves the title words
exactly — splitting the wrapped lines on spaces and concatenating them in
order yields precisely the word sequence of the space-joined original
(upper-cased, non-empty) title lines, and no wrapped line is empty. -/
theorem wrap_preserves_words (w : String → ℕ → ℚ) (event_name : String)
    (hwrap : (fitTitle (titleCfg w)
      (event_name_lines event_name)).usedWrapFallback = true) :
    ((fitTitle (titleCfg w) (event_name_lines event_name)).lines.map
        splitSpace).flatten
      = splitSpace (joinSpace (event_name_lines event_name))
    ∧ ∀ l ∈ (fitTitle (titleCfg w) (event_name_lines event_name)).lines,
        l ≠ "" := by
  have hlt := (wrap_flag_iff (titleCfg w) (event_name_lines event_name)).mp
    hwrap
  rw [fitTitle_of_wrap (titleCfg w) (event_name_lines event_name) hlt]
  exact wrap_lines_splitSpace (titleCfg w) (event_name_lines event_name)

/-- Witness for C10: the title `"Ab cd"` (upper-cased to `"AB CD"`) is
wrapped under a metric of constant width 900, and the wrapped lines carry
exactly the words `["AB", "CD"]`. -/
theorem wrap_preserves_words_witness :
    ((fitTitle (titleCfg fun _ _ => (900 : ℚ))
        (event_name_lines "Ab cd")).lines.map splitSpace).flatten
      = splitSpace (joinSpace (event_name_lines "Ab cd")) := by
  have hlines : event_name_lines "Ab cd" = ["AB CD"] := by decide
  have hsearch : searchFontSize (titleCfg fun _ _ => (900 : ℚ))
      (event_name_lines "Ab cd") initial_font_size = 38 := by
    rw [hlines]
    norm_num [searchFontSize, searchFrom, text_fits, titleCfg, min_font_size,
      initial_font_size, available_height_eq, max_width_eq]
  have hwrap : (fitTitle (titleCfg fun _ _ => (900 : ℚ))
      (event_name_lines "Ab cd")).usedWrapFallback = true := by
    rw [wrap_flag_iff, hsearch]
    simp [min_font_size]
  exact (wrap_preserves_words (fun _ _ => (900 : ℚ)) "Ab cd" hwrap).1

/-! ### Claim C5 -/

/-- Claim C5 (counterexample): with a single photo in the result list,
`page = 2` and `perPage = 15`, the index `(2 - 1) % 15 = 1` is out of range
for the list — yet the implementation does not return none: line 92 clamps
the index with `min(..., len(photos) - 1)` and the photo is selected. -/
theorem photo_index_clamped_not_none :
    fetch_background_image 2 15 (some [(7 : ℕ)])
        (fun n => some { w := 100, h := 100, content := n })
      = some { w := 100, h := 100, content := 7 }
    ∧ ¬ (2 - 1) % 15 < [(7 : ℕ)].length := by
  exact ⟨rfl, by decide⟩

/-- Claim C5 (amended): the implementation selects the photo at the clamped
index `min((page − 1) mod perPage, length − 1)` and returns none exactly
when the request failed, the photo list is empty, or the selected photo's
download fails; for a nonempty list the clamped index is always in
range. -/
theorem fetch_selects_clamped_index {α : Type} (page perPage : ℕ)
    (resp : Option (List α)) (download : α → Option RasterImage) :
    fetch_background_image page perPage resp download
      = resp.bind (fun photos =>
          (photos[min ((page - 1) % perPage) (photos.length - 1)]?).bind
            download)
    ∧ ∀ photos : List α, photos ≠ [] →
        min ((page - 1) % perPage) (photos.length - 1) < photos.length := by
  constructor
  · cases resp with
    | none => rfl
    | some photos =>
      cases photos with
      | nil => rfl
      | cons p ps =>
        simp only [fetch_background_image, List.isEmpty_cons,
          Bool.false_eq_true, if_false, Option.some_bind]
        cases hv : (p :: ps)[min ((page - 1) % perPage)
            ((p :: ps).length - 1)]? with
        | none => simp [hv]
        | some q => simp [hv]
  · intro photos hne
    have hpos : 0 < photos.length := List.length_pos.mpr hne
    exact lt_of_le_of_lt (min_le_right _ _) (Nat.sub_lt hpos Nat.one_pos)

/-- Witness for the amended C5: for the single-photo list the clamped index
0 is in range. -/
theorem fetch_selects_clamped_index_witness :
    min ((2 - 1) % 15) ([(7 : ℕ)].length - 1) < [(7 : ℕ)].length :=
  (fetch_selects_clamped_index 2 15 (some [(7 : ℕ)])
    (fun n => some { w := 100, h := 100, content := n })).2
    [(7 : ℕ)] (by decide)

/-! ### Claim C6 -/

/-- Claim C6 (confirmed): background resolution never propagates a failure.
A blank or absent query resolves to the white fallback without consulting
the collaborator (the result is identical under any two collaborators); a
failed fetch resolves to the white fallback; and in every case the
assembler receives either the white canvas or exactly the photo the
collaborator returned. -/
theorem background_never_fails (f g : String → ℕ → Option RasterImage)
    (query : Option String) (page : ℕ) :
    ((query = none ∨ ∃ s, query = some s ∧ pyStrip s = "") →
      resolveBackground f query page = Background.white
      ∧ resolveBackground f query page = resolveBackground g query page)
    ∧ (∀ s, query = some s → f s page = none →
        resolveBackground f query page = Background.white)
    ∧ (resolveBackground f query page = Background.white
      ∨ ∃ s img, query = some s ∧ f s page = some img
          ∧ resolveBackground f query page = Background.photo img) := by
  refine ⟨?_, ?_, ?_⟩
  · rintro (rfl | ⟨s, rfl, hs⟩)
    · exact ⟨rfl, rfl⟩
    · constructor <;> simp [resolveBackground, hs]
  · intro s hq hf
    subst hq
    by_cases hs : pyStrip s ≠ ""
    · simp [resolveBackground, hs, hf]
    · simp [resolveBackground, hs]
  · cases query with
    | none => exact Or.inl rfl
    | some s =>
      by_cases hs : pyStrip s ≠ ""
      · cases hf : f s page with
        | none => exact Or.inl (by simp [resolveBackground, hs, hf])
        | some img =>
          exact Or.inr ⟨s, img, rfl, hf,
            by simp [resolveBackground, hs, hf]⟩
      · exact Or.inl (by simp [resolveBackground, hs])

/-- Witness for C6: a whitespace-only query resolves to the white canvas
even under a collaborator that always fails. -/
theorem background_never_fails_witness :
    resolveBackground (fun _ _ => none) (some " ") 1 = Background.white := by
  have h := (background_never_fails (fun _ _ => none)
    (fun _ _ => none) (some " ") 1).1
  exact (h (Or.inr ⟨" ", rfl, by decide⟩)).1

/-! ### Claims C7, C8, C9: the render control flow -/

theorem add_footer_noLogo (env : Env) (img : Img)
    (h : env.logoExists = false) :
    add_footer env img = (img, ["Logo not found at path: assets/logo.png"]) := by
  simp [add_footer, h]

theorem add_footer_footerFail (env : Env) (img : Img)
    (h1 : env.logoExists = true) (h2 : env.footerOk = false) :
    add_footer env img = (img, ["Error adding footer"]) := by
  simp [add_footer, h1, h2]

theorem add_footer_ok (env : Env) (img : Img)
    (h1 : env.logoExists = true) (h2 : env.footerOk = true) :
    add_footer env img
      = ({ w := IMAGE_W, h := IMAGE_H, ops := img.ops ++ footerOps env },
         []) := by
  simp [add_footer, h1, h2]

theorem create_event_image_fontFail (env : Env) (inp : EventInputs)
    (h : env.fontOk = false) :
    create_event_image env inp = (none, ["Error loading fonts"]) := by
  simp [create_event_image, h]

theorem create_event_image_fontOk (env : Env) (inp : EventInputs)
    (h : env.fontOk = true) :
    create_event_image env inp
      = (some (add_footer env (preFooter env inp)).1,
         (add_footer env (preFooter env inp)).2) := by
  rcases hAF : add_footer env (preFooter env inp) with ⟨img, ws⟩
  simp [create_event_image, h, hAF]

/-- Claim C7 (confirmed): a render returns no image exactly when the main
font asset fails to load, and then the error is surfaced; when the fonts
load but the logo is missing, the footer step is skipped, the logo warning
is surfaced, and the undecorated poster is still returned; whenever the
fonts load an image is always returned. (Both font-loading sites read the
same Montserrat file, so one flag models the font asset.) -/
theorem asset_failure_outcomes (env : Env) (inp : EventInputs) :
    ((create_event_image env inp).1 = none ↔ env.fontOk = false)
    ∧ (env.fontOk = false →
        create_event_image env inp = (none, ["Error loading fonts"]))
    ∧ (env.fontOk = true → env.logoExists = false →
        create_event_image env inp =
          (some (preFooter env inp),
            ["Logo not found at path: assets/logo.png"]))
    ∧ (env.fontOk = true →
        ∃ img, (create_event_image env inp).1 = some img) := by
  cases hf : env.fontOk with
  | false =>
    refine ⟨by simp [create_event_image_fontFail env inp hf], ?_, ?_, ?_⟩
    · intro _; exact create_event_image_fontFail env inp hf
    · intro ht; simp [hf] at ht
    · intro ht; simp [hf] at ht
  | true =>
    rw [create_event_image_fontOk env inp hf]
    refine ⟨by simp, ?_, ?_, ?_⟩
    · intro hfalse; simp [hf] at hfalse
    · intro _ hl
      rw [add_footer_noLogo env _ hl]
    · intro _
      exact ⟨(add_footer env (preFooter env inp)).1, rfl⟩

/-- Witness for C7: in a state with every asset except the logo available,
the render returns the undecorated poster together with the logo
warning. -/
theorem asset_failure_outcomes_witness :
    create_event_image sampleEnvNoLogo sampleInputs =
      (some (preFooter sampleEnvNoLogo sampleInputs),
        ["Logo not found at path: assets/logo.png"]) :=
  (asset_failure_outcomes sampleEnvNoLogo sampleInputs).2.2.1 rfl rfl

theorem preFooter_dims (env : Env) (inp : EventInputs) :
    (preFooter env inp).w = IMAGE_W ∧ (preFooter env inp).h = IMAGE_H := by
  unfold preFooter panelImg backgroundImg
  cases resolveBackground env.fetch inp.query inp.page <;> exact ⟨rfl, rfl⟩

/-- Claim C8 (confirmed): whatever the resolved background's native
resolution (a fetched photo is resized to `IMAGE_SIZE`), whatever the
title length or wrap outcome, and whether or not the footer step runs,
every returned poster is exactly 1080 × 1080. -/
theorem poster_always_1080 (env : Env) (inp : EventInputs) (img : Img)
    (warnings : List String)
    (h : create_event_image env inp = (some img, warnings)) :
    img.w = 1080 ∧ img.h = 1080 := by
  cases hf : env.fontOk with
  | false =>
    rw [create_event_image_fontFail env inp hf] at h
    cases h
  | true =>
    rw [create_event_image_fontOk env inp hf] at h
    have himg : img = (add_footer env (preFooter env inp)).1 := by
      have := congrArg Prod.fst h
      simpa using this.symm
    subst himg
    have hpf := preFooter_dims env inp
    cases hl : env.logoExists with
    | false =>
      rw [add_footer_noLogo env _ hl]
      simpa [IMAGE_W, IMAGE_H] using hpf
    | true =>
      cases hk : env.footerOk with
      | false =>
        rw [add_footer_footerFail env _ hl hk]
        simpa [IMAGE_W, IMAGE_H] using hpf
      | true =>
        rw [add_footer_ok env _ hl hk]
        exact ⟨rfl, rfl⟩

/-- Witness for C8: the undecorated poster returned when the logo is
missing is 1080 × 1080. -/
theorem poster_always_1080_witness :
    (preFooter sampleEnvNoLogo sampleInputs).w = 1080
    ∧ (preFooter sampleEnvNoLogo sampleInputs).h = 1080 :=
  poster_always_1080 sampleEnvNoLogo sampleInputs
    (preFooter sampleEnvNoLogo sampleInputs)
    ["Logo not found at path: assets/logo.png"] rfl

theorem renderR_create (env : Env) (inp : EventInputs) :
    RenderR env inp (create_event_image env inp) := by
  cases hf : env.fontOk with
  | false =>
    rw [create_event_image_fontFail env inp hf]
    exact RenderR.fontFail hf
  | true =>
    rw [create_event_image_fontOk env inp hf]
    cases hl : env.logoExists with
    | false =>
      rw [add_footer_noLogo env _ hl]
      exact RenderR.logoMissing hf hl
    | true =>
      cases hk : env.footerOk with
      | false =>
        rw [add_footer_footerFail env _ hl hk]
        exact RenderR.footerError hf hl hk
      | true =>
        rw [add_footer_ok env _ hl hk]
        exact RenderR.success hf hl hk

/-- Claim C9 (confirmed): rendering is deterministic. The big-step render
relation — whose state fixes the event fields, the text metrics, the
static assets and the resolved background (through `Env.fetch`) — relates
each state to at most one output, and `create_event_image` realises that
unique output; hence two renders from the same state produce identical
posters. -/
theorem render_deterministic (env : Env) (inp : EventInputs) :
    RenderR env inp (create_event_image env inp)
    ∧ ∀ o1 o2, RenderR env inp o1 → RenderR env inp o2 → o1 = o2 := by
  refine ⟨renderR_create env inp, ?_⟩
  intro o1 o2 h1 h2
  cases h1 <;> cases h2 <;> first | rfl | (exfalso; simp_all)

/-- Witness for C9: with all assets available, the render output is
pinned by the success path of the relation. -/
theorem render_deterministic_witness :
    create_event_image sampleEnv sampleInputs
      = (some ⟨IMAGE_W, IMAGE_H,
          (preFooter sampleEnv sampleInputs).ops ++ footerOps sampleEnv⟩,
         ([] : List String)) := by
  have h := render_deterministic sampleEnv sampleInputs
  exact h.2 (create_event_image sampleEnv sampleInputs) _ h.1
    (RenderR.success rfl rfl rfl)

end EventImage
